import Mathlib

/-!
Verification of the NeoBase administrative scripts.

The definitions below are a shallow embedding of the Python sources
`scripts/create_schema.py` and `scripts/read_database.py`: the statement
splitter and batch executor (`SchemaCreator.execute_sql`), the result
renderer (`print_results`), the query runner (`execute_query` of both
reader classes), the layered configuration built in `main`, and the
resource-release logic (`close` inside a try/finally).  Side effects on
the database connection and the terminal are reified as explicit action
traces; exceptions raised by the driver are modelled as an oracle that
maps a statement to an optional error message.
-/

namespace NeoBase

/-- Characters stripped by Python's `str.strip()` with no argument
(the ASCII whitespace characters; the model restricts Python's Unicode
whitespace class to the ASCII range, which covers every string the
scripts handle). -/
def isPySpace (c : Char) : Bool :=
  c = ' ' || c = '\t' || c = '\n' || c = '\r' || c = '\x0b' || c = '\x0c'

/-- Python `str.strip()` on a list of characters: drop leading and
trailing whitespace. -/
def pyStrip (l : List Char) : List Char :=
  (l.dropWhile isPySpace).rdropWhile isPySpace

/-- Python `str.split(';')` on a list of characters: cut at every
occurrence of the separator, keeping empty fragments, so the result is
always nonempty. -/
def splitSemi : List Char → List (List Char)
  | [] => [[]]
  | c :: cs =>
    if c = ';' then [] :: splitSemi cs
    else
      match splitSemi cs with
      | [] => [[c]]
      | t :: ts => (c :: t) :: ts

/-- Statement splitting from `SchemaCreator.execute_sql`, line 188 of
`create_schema.py`: the list comprehension
`[s.strip() for s in sql.split(';') if s.strip()]` — split on the
semicolon, strip each fragment, keep only fragments that are nonempty
after stripping (Python string truthiness). -/
def splitStatements (l : List Char) : List (List Char) :=
  ((splitSemi l).map pyStrip).filter (fun t => !t.isEmpty)

/-- The same statement splitter, operating on `String`. -/
def splitStatementsS (s : String) : List String :=
  (splitStatements s.data).map (fun l => String.mk l)

/-- Rejoining a fragment list with the semicolon separator, as Python's
single-character `";".join`. -/
def joinSemi : List (List Char) → List Char
  | [] => []
  | [a] => a
  | a :: b :: rest => a ++ ';' :: joinSemi (b :: rest)

example : splitStatementsS "CREATE TABLE t(x int);  ; INSERT INTO t VALUES (1);"
    = ["CREATE TABLE t(x int)", "INSERT INTO t VALUES (1)"] := by decide

lemma pyStrip_idem (l : List Char) : pyStrip (pyStrip l) = pyStrip l := by
  unfold pyStrip
  have hA : List.dropWhile isPySpace ((l.dropWhile isPySpace).rdropWhile isPySpace)
      = (l.dropWhile isPySpace).rdropWhile isPySpace := by
    rw [List.dropWhile_eq_self_iff]
    intro hl
    have hpre : (l.dropWhile isPySpace).rdropWhile isPySpace <+: l.dropWhile isPySpace :=
      List.rdropWhile_prefix _ _
    have hlen : 0 < (l.dropWhile isPySpace).length := hl.trans_le hpre.length_le
    have h0 := List.dropWhile_get_zero_not isPySpace l hlen
    have hEq := hpre.getElem (n := 0) (by simpa using hl)
    simpa [List.get_eq_getElem, hEq] using h0
  rw [hA, List.rdropWhile_idempotent]

lemma pyStrip_sublist (l : List Char) : (pyStrip l).Sublist l :=
  ((List.rdropWhile_prefix _ _).sublist).trans (List.dropWhile_suffix _).sublist

lemma mem_pyStrip (l : List Char) {c : Char} (h : c ∈ pyStrip l) : c ∈ l :=
  (pyStrip_sublist l).subset h

lemma splitSemi_cons_semi (cs : List Char) :
    splitSemi (';' :: cs) = [] :: splitSemi cs := by
  conv_lhs => unfold splitSemi
  simp

lemma splitSemi_cons_ne (c : Char) (cs : List Char) (hc : c ≠ ';') :
    splitSemi (c :: cs) =
      match splitSemi cs with
      | [] => [[c]]
      | t :: ts => (c :: t) :: ts := by
  conv_lhs => unfold splitSemi
  simp [hc]

lemma splitSemi_ne_nil (l : List Char) : splitSemi l ≠ [] := by
  induction l with
  | nil => simp [splitSemi]
  | cons c cs ih =>
    unfold splitSemi
    by_cases h : c = ';'
    · simp [h]
    · simp only [h, if_false]
      cases hcs : splitSemi cs <;> simp

lemma mem_splitSemi_no_semi {l : List Char} {t : List Char} (h : t ∈ splitSemi l) :
    (';' : Char) ∉ t := by
  induction l generalizing t with
  | nil => simp [splitSemi] at h; simp [h]
  | cons c cs ih =>
    unfold splitSemi at h
    by_cases hc : c = ';'
    · simp only [hc, if_true, List.mem_cons] at h
      rcases h with h | h
      · simp [h]
      · exact ih h
    · simp only [hc, if_false] at h
      cases hcs : splitSemi cs with
      | nil => exact absurd hcs (splitSemi_ne_nil cs)
      | cons u us =>
        rw [hcs] at h
        rcases List.mem_cons.mp h with h | h
        · subst h
          intro hmem
          rcases List.mem_cons.mp hmem with h | h
          · exact hc h.symm
          · exact ih (hcs ▸ List.mem_cons_self u us) h
        · exact ih (hcs ▸ List.mem_cons_of_mem u h)

lemma splitSemi_no_semi {l : List Char} (h : (';' : Char) ∉ l) : splitSemi l = [l] := by
  induction l with
  | nil => rfl
  | cons c cs ih =>
    have hc : c ≠ ';' := fun hEq => h (hEq ▸ List.mem_cons_self c cs)
    have hcs : (';' : Char) ∉ cs := fun hm => h (List.mem_cons_of_mem c hm)
    unfold splitSemi
    simp [hc, ih hcs]

lemma splitSemi_append (a b : List Char) (h : (';' : Char) ∉ a) :
    splitSemi (a ++ b) =
      match splitSemi b with
      | [] => [a]
      | t :: ts => (a ++ t) :: ts := by
  induction a with
  | nil =>
    cases hb : splitSemi b with
    | nil => exact absurd hb (splitSemi_ne_nil b)
    | cons t ts => simp [hb]
  | cons c a' ih =>
    have hc : c ≠ ';' := fun hEq => h (hEq ▸ List.mem_cons_self c a')
    have ha' : (';' : Char) ∉ a' := fun hm => h (List.mem_cons_of_mem c hm)
    have hrec := ih ha'
    cases hb : splitSemi b with
    | nil => exact absurd hb (splitSemi_ne_nil b)
    | cons t ts =>
      simp only [hb] at hrec
      simp only [List.cons_append, splitSemi_cons_ne c _ hc, hrec, hb]

lemma splitSemi_joinSemi (l : List (List Char)) (h : ∀ x ∈ l, (';' : Char) ∉ x)
    (hne : l ≠ []) : splitSemi (joinSemi l) = l := by
  induction l with
  | nil => exact absurd rfl hne
  | cons a rest ih =>
    cases rest with
    | nil =>
      simp only [joinSemi]
      exact splitSemi_no_semi (h a (List.mem_cons_self a []))
    | cons b rest' =>
      have ha : (';' : Char) ∉ a := h a (List.mem_cons_self a _)
      have hrest : ∀ x ∈ b :: rest', (';' : Char) ∉ x :=
        fun x hx => h x (List.mem_cons_of_mem a hx)
      have hIH := ih hrest (by simp)
      show splitSemi (a ++ ';' :: joinSemi (b :: rest')) = a :: b :: rest'
      rw [splitSemi_append a _ ha]
      simp [splitSemi_cons_semi, hIH]

lemma mem_splitStatements {l : List Char} {t : List Char} (h : t ∈ splitStatements l) :
    pyStrip t = t ∧ t ≠ [] ∧ (';' : Char) ∉ t := by
  unfold splitStatements at h
  have h1 := List.mem_filter.mp h
  rcases List.mem_map.mp h1.1 with ⟨u, hu, hut⟩
  refine ⟨hut ▸ pyStrip_idem u, ?_, ?_⟩
  · have := h1.2
    simpa [List.isEmpty_iff] using this
  · intro hmem
    have hmem' : (';' : Char) ∈ pyStrip u := by rw [hut]; exact hmem
    exact mem_splitSemi_no_semi hu (mem_pyStrip u hmem')

lemma splitStatements_nil : splitStatements [] = [] := by decide

/-- C6: splitting, rejoining on the semicolon and splitting again returns
the original statement sequence. -/
theorem splitStatements_rejoin_idem (l : List Char) :
    splitStatements (joinSemi (splitStatements l)) = splitStatements l := by
  cases hL : splitStatements l with
  | nil => simpa [joinSemi] using splitStatements_nil
  | cons a rest =>
    have hmem : ∀ x ∈ a :: rest, pyStrip x = x ∧ x ≠ [] ∧ (';' : Char) ∉ x :=
      fun x hx => mem_splitStatements (hL ▸ hx)
    have hsplit : splitSemi (joinSemi (a :: rest)) = a :: rest :=
      splitSemi_joinSemi _ (fun x hx => (hmem x hx).2.2) (by simp)
    unfold splitStatements
    rw [hsplit]
    have hmap : (a :: rest).map pyStrip = a :: rest :=
      List.map_congr_left (fun x hx => (hmem x hx).1) |>.trans (List.map_id _)
    rw [hmap]
    exact List.filter_eq_self.mpr
      (fun x hx => by simpa [List.isEmpty_iff] using (hmem x hx).2.1)

lemma pyStrip_nil : pyStrip [] = [] := rfl

lemma splitSemi_concat_semi (l : List Char) :
    splitSemi (l ++ [';']) = splitSemi l ++ [[]] := by
  induction l with
  | nil => decide
  | cons c cs ih =>
    by_cases hc : c = ';'
    · subst hc
      rw [List.cons_append, splitSemi_cons_semi, splitSemi_cons_semi, ih]
      simp
    · rw [List.cons_append, splitSemi_cons_ne c _ hc, splitSemi_cons_ne c _ hc, ih]
      cases hcs : splitSemi cs with
      | nil => exact absurd hcs (splitSemi_ne_nil cs)
      | cons t ts => simp

lemma splitStatements_concat_semi (l : List Char) :
    splitStatements (l ++ [';']) = splitStatements l := by
  unfold splitStatements
  rw [splitSemi_concat_semi]
  simp [pyStrip_nil]

lemma splitStatementsS_concat_semi (s : String) :
    splitStatementsS (s ++ ";") = splitStatementsS s := by
  unfold splitStatementsS
  have : (s ++ ";").data = s.data ++ [';'] := String.data_append s ";"
  rw [this, splitStatements_concat_semi]

lemma mem_splitStatementsS_ne {s t : String} (h : t ∈ splitStatementsS s) : t ≠ "" := by
  rcases List.mem_map.mp h with ⟨u, hu, hut⟩
  rcases mem_splitStatements hu with ⟨_, hne, _⟩
  subst hut
  simpa [String.ext_iff] using hne

/-- C2: every produced statement is nonempty and already stripped, the
surviving fragments keep their order (the statement list is a sublist of
the stripped fragment list), and the spec's example splits to exactly its
two statements. -/
theorem splitStatements_shape :
    (∀ (s t : String), t ∈ splitStatementsS s →
      t ≠ "" ∧ String.mk (pyStrip t.data) = t) ∧
    (∀ l : List Char, (splitStatements l).Sublist ((splitSemi l).map pyStrip)) ∧
    splitStatementsS "CREATE TABLE t(x int);  ; INSERT INTO t VALUES (1);"
      = ["CREATE TABLE t(x int)", "INSERT INTO t VALUES (1)"] := by
  refine ⟨?_, fun l => List.filter_sublist _, by decide⟩
  intro s t ht
  refine ⟨mem_splitStatementsS_ne ht, ?_⟩
  rcases List.mem_map.mp ht with ⟨u, hu, hut⟩
  rcases mem_splitStatements hu with ⟨hstrip, _, _⟩
  subst hut
  simp [hstrip]

theorem splitStatements_shape_witness :
    ("a" : String) ≠ "" ∧ String.mk (pyStrip ("a" : String).data) = "a" :=
  splitStatements_shape.1 "a ;" "a" (by decide)

/-!
Batch executor model.  `SchemaCreator.execute_sql` interacts with the
database through a cursor and a connection; the model reifies each call
as an action, and models the driver by an oracle mapping each statement
to `none` (executes fine) or `some msg` (raises an exception whose text
is `msg`).
-/

/-- Observable calls made by `execute_sql`: cursor executes, connection
commit/rollback, and the log lines it prints. -/
inductive DbAction
  | execute (s : String)
  | commit
  | rollback
  | logInfo (s : String)
  | logError (s : String)
  | logSuccess (s : String)
deriving DecidableEq

/-- Loop body of `execute_sql` (lines 190-193 of `create_schema.py`):
for each statement, if it is truthy, log and execute it; stop at the
first statement on which the driver raises, carrying the error text. -/
def runLoop (execOracle : String → Option String) :
    List String → List DbAction × Option String
  | [] => ([], none)
  | s :: rest =>
    if s.isEmpty then runLoop execOracle rest
    else
      let pre := [DbAction.logInfo ("Executing: " ++ s.take 80 ++ "..."),
                  DbAction.execute s]
      match execOracle s with
      | some msg => (pre, some msg)
      | none =>
        let r := runLoop execOracle rest
        (pre ++ r.1, r.2)

/-- SchemaCreator.execute_sql, lines 184-201 of `create_schema.py`:
split the SQL text, execute the statements in order, commit and return
True on full success, and on the first exception log the error, roll
back and return False. -/
def execute_sql (execOracle : String → Option String) (sql : String) :
    List DbAction × Bool :=
  let r := runLoop execOracle (splitStatementsS sql)
  match r.2 with
  | none =>
    (r.1 ++ [DbAction.commit, DbAction.logSuccess "Schema created successfully!"], true)
  | some msg =>
    (r.1 ++ [DbAction.logError ("Failed to execute SQL: " ++ msg), DbAction.rollback],
     false)

/-- Commit calls in a trace. -/
def commitCount (tr : List DbAction) : Nat :=
  (tr.filter (fun a => match a with | DbAction.commit => true | _ => false)).length

/-- Rollback calls in a trace. -/
def rollbackCount (tr : List DbAction) : Nat :=
  (tr.filter (fun a => match a with | DbAction.rollback => true | _ => false)).length

/-- Statements passed to `cursor.execute`, in order. -/
def executedStatements (tr : List DbAction) : List String :=
  tr.filterMap (fun a => match a with | DbAction.execute s => some s | _ => none)

lemma runLoop_all_ok (execOracle : String → Option String) (stmts : List String)
    (h : ∀ s ∈ stmts, execOracle s = none) :
    (runLoop execOracle stmts).2 = none ∧
    commitCount (runLoop execOracle stmts).1 = 0 ∧
    rollbackCount (runLoop execOracle stmts).1 = 0 ∧
    executedStatements (runLoop execOracle stmts).1
      = stmts.filter (fun s => !s.isEmpty) := by
  induction stmts with
  | nil => simp [runLoop, commitCount, rollbackCount, executedStatements]
  | cons s rest ih =>
    have hs := h s (List.mem_cons_self s rest)
    have hrest : ∀ x ∈ rest, execOracle x = none :=
      fun x hx => h x (List.mem_cons_of_mem s hx)
    rcases ih hrest with ⟨h1, h2, h3, h4⟩
    by_cases he : s.isEmpty
    · simpa [runLoop, he] using ⟨h1, h2, h3, h4⟩
    · simp only [runLoop, he, Bool.false_eq_true, if_false, hs]
      refine ⟨h1, ?_, ?_, ?_⟩
      · simpa [commitCount, List.filter_append] using h2
      · simpa [rollbackCount, List.filter_append] using h3
      · simpa [executedStatements, List.filterMap_append, he] using h4

lemma splitStatementsS_filter_nonempty (sql : String) :
    (splitStatementsS sql).filter (fun s => !s.isEmpty) = splitStatementsS sql := by
  refine List.filter_eq_self.mpr (fun t ht => ?_)
  have h' := mem_splitStatementsS_ne ht
  simp only [Bool.not_eq_true', Bool.eq_false_iff, ne_eq, String.isEmpty_iff]
  exact h'

/-- C3: when the driver raises on no statement of the script, execute_sql
returns True after exactly one commit and no rollback, having executed
precisely the split statements in order; a script that is only whitespace
and semicolons splits to nothing (a no-op success), and a trailing
semicolon never adds a statement. -/
theorem execute_sql_all_valid (execOracle : String → Option String) (sql : String)
    (h : ∀ s ∈ splitStatementsS sql, execOracle s = none) :
    (execute_sql execOracle sql).2 = true ∧
    commitCount (execute_sql execOracle sql).1 = 1 ∧
    rollbackCount (execute_sql execOracle sql).1 = 0 ∧
    executedStatements (execute_sql execOracle sql).1 = splitStatementsS sql ∧
    splitStatementsS " \n ; ; " = [] ∧
    (∀ t : String, splitStatementsS (t ++ ";") = splitStatementsS t) := by
  rcases runLoop_all_ok execOracle (splitStatementsS sql) h with ⟨h1, h2, h3, h4⟩
  have hres : execute_sql execOracle sql
      = ((runLoop execOracle (splitStatementsS sql)).1
          ++ [DbAction.commit, DbAction.logSuccess "Schema created successfully!"], true) := by
    rcases hEq : runLoop execOracle (splitStatementsS sql) with ⟨tr, err⟩
    have herr : err = none := by rw [hEq] at h1; exact h1
    subst herr
    unfold execute_sql
    rw [hEq]
  refine ⟨by rw [hres], ?_, ?_, ?_, by decide, splitStatementsS_concat_semi⟩
  · rw [hres]
    simpa [commitCount, List.filter_append] using h2
  · rw [hres]
    simpa [rollbackCount, List.filter_append] using h3
  · rw [hres]
    simp only [executedStatements, List.filterMap_append] at h4 ⊢
    rw [h4, splitStatementsS_filter_nonempty]
    simp [executedStatements]

theorem execute_sql_all_valid_witness :
    (execute_sql (fun _ => none) "a;b").2 = true ∧
    commitCount (execute_sql (fun _ => none) "a;b").1 = 1 ∧
    rollbackCount (execute_sql (fun _ => none) "a;b").1 = 0 ∧
    executedStatements (execute_sql (fun _ => none) "a;b").1 = ["a", "b"] := by
  have h := execute_sql_all_valid (fun _ => none) "a;b" (fun s _ => rfl)
  exact ⟨h.1, h.2.1, h.2.2.1, by rw [h.2.2.2.1]; decide⟩

/-- C1 (amended): on a three-statement script whose second statement
raises, execute_sql logs and executes exactly the first two statements,
never touches the third, logs the driver's error text and issues exactly
one rollback, and returns False — the bare failure boolean of the code,
which carries no failing index. -/
theorem execute_sql_stops_on_failure (execOracle : String → Option String)
    (sql A B C msg : String)
    (hs : splitStatementsS sql = [A, B, C])
    (hA : execOracle A = none) (hB : execOracle B = some msg) :
    execute_sql execOracle sql =
      ([DbAction.logInfo ("Executing: " ++ A.take 80 ++ "..."), DbAction.execute A,
        DbAction.logInfo ("Executing: " ++ B.take 80 ++ "..."), DbAction.execute B,
        DbAction.logError ("Failed to execute SQL: " ++ msg), DbAction.rollback],
       false) := by
  have hAne : A.isEmpty = false := by
    have h' := mem_splitStatementsS_ne (hs ▸ (by simp : A ∈ [A, B, C]))
    simp only [Bool.eq_false_iff, ne_eq, String.isEmpty_iff]
    exact h'
  have hBne : B.isEmpty = false := by
    have h' := mem_splitStatementsS_ne (hs ▸ (by simp : B ∈ [A, B, C]))
    simp only [Bool.eq_false_iff, ne_eq, String.isEmpty_iff]
    exact h'
  have hrun : runLoop execOracle (splitStatementsS sql)
      = ([DbAction.logInfo ("Executing: " ++ A.take 80 ++ "..."), DbAction.execute A,
          DbAction.logInfo ("Executing: " ++ B.take 80 ++ "..."), DbAction.execute B],
         some msg) := by
    rw [hs]
    simp [runLoop, hAne, hBne, hA, hB]
  unfold execute_sql
  rw [hrun]
  simp

set_option maxRecDepth 4000 in
theorem execute_sql_stops_on_failure_witness :
    execute_sql (fun t => if t = "B" then some "boom" else none) "A;B;C" =
      ([DbAction.logInfo "Executing: A...", DbAction.execute "A",
        DbAction.logInfo "Executing: B...", DbAction.execute "B",
        DbAction.logError "Failed to execute SQL: boom", DbAction.rollback],
       false) := by
  have h := execute_sql_stops_on_failure
      (fun t => if t = "B" then some "boom" else none) "A;B;C" "A" "B" "C" "boom"
      (by decide) (by decide) (by decide)
  simpa using h

set_option maxRecDepth 4000 in
/-- C1 (counterexample to the claim as stated): execute_sql returns the
same bare False whether the failing statement sits at index 0 or at
index 1, so its return value cannot be a Failure record carrying the
0-based index of the failing statement. -/
theorem execute_sql_result_carries_no_index :
    ((splitStatementsS "A;B;C").findIdx?
        (fun s => (if s = "B" then some "boom" else (none : Option String)).isSome)
      = some 1) ∧
    ((splitStatementsS "A;B;C").findIdx?
        (fun s => (if s = "A" then some "boom" else (none : Option String)).isSome)
      = some 0) ∧
    (execute_sql (fun t => if t = "B" then some "boom" else none) "A;B;C").2
      = (execute_sql (fun t => if t = "A" then some "boom" else none) "A;B;C").2 := by
  refine ⟨by decide, by decide, ?_⟩
  decide

/-!
Reader model.  `read_database.py` returns query results as a list of
dict rows; a row is modelled as an association list from column name to
a displayable value, and Python's str() on such a value is made
explicit.  The cursor is modelled by a behaviour: either it raises with
a message, or it succeeds and fetchall would produce the given rows.
-/

/-- Displayable cell value of a result row. -/
inductive PyValue
  | vInt (n : Int)
  | vStr (s : String)
deriving DecidableEq

/-- Python str() on a row value. -/
def pyToString : PyValue → String
  | PyValue.vInt n => toString n
  | PyValue.vStr s => s

/-- Python row.get(h, '') on a dict row. -/
def rowGet (row : List (String × PyValue)) (h : String) : PyValue :=
  match row.find? (fun p => p.1 == h) with
  | some p => p.2
  | none => PyValue.vStr ""

/-- Behaviour of the cursor on one execute call. -/
inductive QueryBehavior
  | raises (msg : String)
  | succeeds (rows : List (List (String × PyValue)))

/-- Observable calls made by execute_query. -/
inductive ReadAction
  | execute (q : String)
  | fetchall
  | commit
  | logError (s : String)
deriving DecidableEq

/-- Python str.upper() restricted to ASCII, the range the scripts use. -/
def pyToUpper (l : List Char) : List Char :=
  l.map Char.toUpper

/-- Python str.startswith on character lists. -/
def listStartsWith : List Char → List Char → Bool
  | [], _ => true
  | _ :: _, [] => false
  | c :: cs, d :: ds => c = d && listStartsWith cs ds

/-- The SELECT test of both readers:
query.strip().upper().startswith('SELECT'). -/
def isSelectQuery (q : String) : Bool :=
  listStartsWith "SELECT".data (pyToUpper (pyStrip q.data))

/-- PostgresReader.execute_query and MySQLReader.execute_query (lines
91-103 and 167-179 of read_database.py; the two bodies are line-for-line
identical): execute the query; if its stripped upper-cased text starts
with SELECT, fetch and return all rows; otherwise commit and return the
empty list; if the cursor raises, log the error and return the empty
list. -/
def execute_query (beh : QueryBehavior) (q : String) :
    List ReadAction × List (List (String × PyValue)) :=
  match beh with
  | QueryBehavior.raises msg =>
    ([ReadAction.execute q, ReadAction.logError ("Query execution failed: " ++ msg)], [])
  | QueryBehavior.succeeds rows =>
    if isSelectQuery q then ([ReadAction.execute q, ReadAction.fetchall], rows)
    else ([ReadAction.execute q, ReadAction.commit], [])

/-- C7: when the cursor raises during execution the exception is caught
and the empty list is returned, which is exactly the value a successful
query with zero rows returns - at the return-value interface the two are
indistinguishable. -/
theorem execute_query_swallows_failure (q msg : String) :
    (execute_query (QueryBehavior.raises msg) q).2 = [] ∧
    (execute_query (QueryBehavior.raises msg) q).2
      = (execute_query (QueryBehavior.succeeds []) q).2 := by
  refine ⟨rfl, ?_⟩
  unfold execute_query
  by_cases h : isSelectQuery q <;> simp [h]

/-- C10: execute_query treats a statement as a query exactly when its
stripped upper-cased text starts with the literal SELECT prefix; every
other statement is committed and reports no rows, even when the cursor
produced rows - witnessed by a row-producing WITH query. -/
theorem execute_query_select_classification :
    (∀ (q : String) (rows : List (List (String × PyValue))),
      execute_query (QueryBehavior.succeeds rows) q
        = if listStartsWith "SELECT".data (pyToUpper (pyStrip q.data))
          then ([ReadAction.execute q, ReadAction.fetchall], rows)
          else ([ReadAction.execute q, ReadAction.commit], [])) ∧
    (execute_query (QueryBehavior.succeeds [[("x", PyValue.vInt 1)]])
        "WITH t AS (SELECT 1 AS x) SELECT x FROM t")
      = ([ReadAction.execute "WITH t AS (SELECT 1 AS x) SELECT x FROM t",
          ReadAction.commit], []) ∧
    isSelectQuery "  select * from users" = true := by
  refine ⟨fun q rows => rfl, ?_, by decide⟩
  decide

/-!
Result renderer.  `print_results` writes to the terminal; the model
returns the list of emitted messages, distinguishing warning-level
notices from ordinary prints.
-/

/-- One message emitted by print_results. -/
inductive OutEvent
  | warn (s : String)
  | out (s : String)
deriving DecidableEq

/-- JSON escaping of one character, as the json module writes strings
(the escapes the scripts can produce). -/
def jsonEscapeChar (c : Char) : List Char :=
  if c = '\\' then ['\\', '\\']
  else if c = '"' then ['\\', '"']
  else if c = '\n' then ['\\', 'n']
  else if c = '\t' then ['\\', 't']
  else if c = '\r' then ['\\', 'r']
  else [c]

/-- JSON string literal for s. -/
def jsonString (s : String) : String :=
  String.mk ('"' :: (s.data.map jsonEscapeChar).flatten ++ ['"'])

/-- JSON form of a cell value (numbers unquoted, strings quoted). -/
def jsonValue : PyValue → String
  | PyValue.vInt n => toString n
  | PyValue.vStr s => jsonString s

/-- One dict row as json.dumps(..., indent=2) renders it inside the
top-level array. -/
def jsonDumpRow (row : List (String × PyValue)) : String :=
  match row with
  | [] => "  \x7b\x7d"
  | _ =>
    "  \x7b\n"
      ++ String.intercalate ",\n"
          (row.map (fun p => "    " ++ jsonString p.1 ++ ": " ++ jsonValue p.2))
      ++ "\n  \x7d"

/-- json.dumps(results, indent=2, default=str) for a list of dict rows;
the empty list serialises to the empty JSON array. -/
def jsonDumps (results : List (List (String × PyValue))) : String :=
  match results with
  | [] => "[]"
  | _ => "[\n" ++ String.intercalate ",\n" (results.map jsonDumpRow) ++ "\n]"

/-- Column width computed by print_results lines 218-222: start from the
header's length and fold in the length of str() of every cell of the
column. -/
def colWidth (results : List (List (String × PyValue))) (h : String) : Nat :=
  results.foldl (fun acc row => max acc (pyToString (rowGet row h)).length) h.length

/-- Python str.ljust: pad on the right with spaces up to the width. -/
def ljust (s : String) (w : Nat) : String :=
  s ++ String.mk (List.replicate (w - s.length) ' ')

/-- Header line of the table: headers left-justified to their column
widths, joined with " | ". -/
def headerLine (headers : List String) (results : List (List (String × PyValue))) :
    String :=
  String.intercalate " | " (headers.map (fun h => ljust h (colWidth results h)))

/-- One data line of the table: the row's cells under each header,
left-justified, joined with " | ". -/
def rowLine (headers : List String) (results : List (List (String × PyValue)))
    (row : List (String × PyValue)) : String :=
  String.intercalate " | "
    (headers.map (fun h => ljust (pyToString (rowGet row h)) (colWidth results h)))

/-- print_results, lines 203-234 of read_database.py: an empty result
set yields only the warning notice (for any format, since the early
return precedes the format test); otherwise json prints one dump, and
table prints the header line (preceded by a blank line), a dash rule of
the header line's length, one line per row, and a final row count. -/
def print_results (results : List (List (String × PyValue))) (format_type : String) :
    List OutEvent :=
  if results.isEmpty then [OutEvent.warn "No results returned"]
  else if format_type = "json" then [OutEvent.out (jsonDumps results)]
  else
    let headers := results.headI.map (fun p => p.1)
    let hl := headerLine headers results
    OutEvent.out ("\n" ++ hl)
      :: OutEvent.out (String.mk (List.replicate hl.length '-'))
      :: (results.map (fun row => OutEvent.out (rowLine headers results row))
          ++ [OutEvent.out ("\n" ++ toString results.length ++ " row(s) returned\n")])

/-- C4 (amended): on the empty result set print_results emits only the
warning-level notice, in table format and in json format alike; no table
body and no JSON text is produced. -/
theorem print_results_empty (format_type : String) :
    print_results [] format_type = [OutEvent.warn "No results returned"] := rfl

/-- C4 (counterexample to the claim as stated): the empty JSON array
would be the two-character text produced by json.dumps on [], but on the
empty result set the json format emits only the warning notice - the
early return fires before the format test, so no JSON array is ever
printed. -/
theorem print_results_empty_json_no_array :
    jsonDumps [] = "[]" ∧
    print_results [] "json" = [OutEvent.warn "No results returned"] ∧
    print_results [] "json" ≠ [OutEvent.out "[]"] := by
  refine ⟨rfl, rfl, ?_⟩
  decide

lemma foldl_max_eq (l : List Nat) (a : Nat) :
    l.foldl max a = max a (l.foldl max 0) := by
  induction l generalizing a with
  | nil => simp
  | cons x xs ih =>
    simp only [List.foldl_cons]
    rw [ih (max a x), ih (max 0 x)]
    simp [Nat.max_assoc]

lemma colWidth_eq_max (results : List (List (String × PyValue))) (h : String) :
    colWidth results h
      = max h.length
          ((results.map (fun row => (pyToString (rowGet row h)).length)).foldl max 0) := by
  unfold colWidth
  rw [← List.foldl_map (fun row => (pyToString (rowGet row h)).length) max]
  exact foldl_max_eq _ _

/-- C5: in table format each column's width is the maximum of the header
length and every cell's string length in that column; the output is the
header line of left-justified headers joined by " | " (preceded by a
blank line), then a dash rule exactly as long as the header line, then
one left-justified line per row in order, then the trailing row count
line. -/
theorem print_results_table_shape (results : List (List (String × PyValue)))
    (hne : results ≠ []) :
    (∀ h : String, colWidth results h
        = max h.length
            ((results.map (fun row => (pyToString (rowGet row h)).length)).foldl max 0)) ∧
    print_results results "table"
      = OutEvent.out ("\n" ++ headerLine (results.headI.map (fun p => p.1)) results)
        :: OutEvent.out (String.mk (List.replicate
              (headerLine (results.headI.map (fun p => p.1)) results).length '-'))
        :: (results.map (fun row =>
              OutEvent.out (rowLine (results.headI.map (fun p => p.1)) results row))
            ++ [OutEvent.out ("\n" ++ toString results.length ++ " row(s) returned\n")]) := by
  refine ⟨fun h => colWidth_eq_max results h, ?_⟩
  unfold print_results
  have : results.isEmpty = false := by
    simpa [List.isEmpty_iff] using hne
  simp [this]

set_option maxRecDepth 8000 in
theorem print_results_table_shape_witness :
    print_results
        [[("id", PyValue.vInt 1), ("name", PyValue.vStr "ann")],
         [("id", PyValue.vInt 2), ("name", PyValue.vStr "bob")]] "table"
      = [OutEvent.out "\nid | name",
         OutEvent.out "---------",
         OutEvent.out "1  | ann ",
         OutEvent.out "2  | bob ",
         OutEvent.out "\n2 row(s) returned\n"] := by
  have h := (print_results_table_shape
      [[("id", PyValue.vInt 1), ("name", PyValue.vStr "ann")],
       [("id", PyValue.vInt 2), ("name", PyValue.vStr "bob")]] (by decide)).2
  rw [h]
  decide

/-!
Configuration model.  DEFAULT_CONFIG (lines 26-41 of both scripts) is
built from DB_* environment variables with built-in fallbacks; main
(lines 313-324 / 281-292) copies it and overwrites fields from the CLI
flags it finds truthy.  The environment is modelled as a partial map
from variable name to value; an unset variable is none.
-/

/-- Connection configuration dict. -/
structure DbConfig where
  db_name : String
  db_user : String
  db_password : String
  db_host : String
  db_port : String
deriving DecidableEq

/-- DEFAULT_CONFIG entry for a database type: os.getenv with a fallback
per field; the port fallback is 5432 for postgres and 3306 for mysql. -/
def defaultConfig (env : String → Option String) (dbType : String) : DbConfig :=
  { db_name := (env "DB_NAME").getD "myapp_db"
    db_user := (env "DB_USER").getD "myapp_user"
    db_password := (env "DB_PASSWORD").getD "changeme123"
    db_host := (env "DB_HOST").getD "localhost"
    db_port := (env "DB_PORT").getD (if dbType = "postgres" then "5432" else "3306") }

/-- The five override flags of the CLI; a flag that was not given is
none. -/
structure CliFlags where
  name : Option String
  user : Option String
  password : Option String
  host : Option String
  port : Option String
deriving DecidableEq

/-- Python truthiness of an argparse string option: None and the empty
string are falsy. -/
def truthy : Option String → Bool
  | none => false
  | some s => !s.isEmpty

/-- Configuration construction of main: copy the defaults, then
overwrite each field whose flag is truthy. -/
def buildConfig (env : String → Option String) (dbType : String)
    (args : CliFlags) : DbConfig :=
  let c0 := defaultConfig env dbType
  let c1 := if truthy args.name then { c0 with db_name := args.name.getD "" } else c0
  let c2 := if truthy args.user then { c1 with db_user := args.user.getD "" } else c1
  let c3 := if truthy args.password then
      { c2 with db_password := args.password.getD "" } else c2
  let c4 := if truthy args.host then { c3 with db_host := args.host.getD "" } else c3
  if truthy args.port then { c4 with db_port := args.port.getD "" } else c4

/-- Layering of one configuration field as the amended claim states it:
built-in default, unless the environment variable is set, unless the
flag was given with a truthy (non-empty) value. -/
def layerField (builtin : String) (envVal : Option String) (flag : Option String) :
    String :=
  if truthy flag then flag.getD "" else envVal.getD builtin

/-- C8 (amended): each connection field is layered independently -
built-in default, overridden by its DB_* environment variable when set,
overridden by its CLI flag when the flag was given with a non-empty
value; the configuration is the defaults copy with exactly the truthy
flags applied. -/
theorem buildConfig_layering (env : String → Option String) (dbType : String)
    (args : CliFlags) :
    (buildConfig env dbType args).db_name = layerField "myapp_db" (env "DB_NAME") args.name ∧
    (buildConfig env dbType args).db_user = layerField "myapp_user" (env "DB_USER") args.user ∧
    (buildConfig env dbType args).db_password
      = layerField "changeme123" (env "DB_PASSWORD") args.password ∧
    (buildConfig env dbType args).db_host = layerField "localhost" (env "DB_HOST") args.host ∧
    (buildConfig env dbType args).db_port
      = layerField (if dbType = "postgres" then "5432" else "3306")
          (env "DB_PORT") args.port := by
  unfold buildConfig defaultConfig layerField
  split_ifs <;> simp_all

/-- C8 (counterexample to the claim as stated): a name flag explicitly
given as the empty string is a given flag, yet the truthiness test of
main skips it, and the built-in default survives instead of the flag's
value. -/
theorem buildConfig_empty_flag_ignored :
    (buildConfig (fun _ => none) "postgres"
        { name := some "", user := none, password := none, host := none,
          port := none }).db_name = "myapp_db" ∧
    ("myapp_db" : String) ≠ "" := by
  refine ⟨rfl, by decide⟩

/-!
Resource release.  Both scripts hold a cursor and a connection as
optional attributes; close (create_schema.py lines 203-209,
read_database.py 131-137 and 195-201) closes whichever are set, cursor
first; main wraps its body in try/finally so close runs on every exit
path, exceptional ones included.
-/

/-- Which of self.cursor / self.connection are set (non-None). -/
structure ConnState where
  cursor : Bool
  connection : Bool
deriving DecidableEq

/-- Calls made by close. -/
inductive CloseEvent
  | closeCursor
  | closeConnection
  | logClosed
deriving DecidableEq

/-- The close method: close the cursor if set, then close the connection
if set (logging afterwards); a state where connect never succeeded
produces no calls. -/
def close (st : ConnState) : List CloseEvent :=
  (if st.cursor then [CloseEvent.closeCursor] else [])
    ++ (if st.connection then [CloseEvent.closeConnection, CloseEvent.logClosed] else [])

/-- How the try block of main ended. -/
inductive RunOutcome
  | ok
  | raised (msg : String)

/-- One event of a whole run: an abstract action of the try block, or a
cleanup call. -/
inductive RunEvent
  | body (n : Nat)
  | cleanup (e : CloseEvent)
deriving DecidableEq

/-- The try/finally of main: whatever the body did and however it ended,
the finally clause appends the close calls exactly once. -/
def runMainWithCleanup (bodyTrace : List Nat) (outcome : RunOutcome)
    (st : ConnState) : List RunEvent :=
  match outcome with
  | RunOutcome.ok => bodyTrace.map RunEvent.body ++ (close st).map RunEvent.cleanup
  | RunOutcome.raised _ => bodyTrace.map RunEvent.body ++ (close st).map RunEvent.cleanup

/-- C9: the cleanup runs identically on the normal and the exceptional
exit path, the run trace always ends with the close calls, any cursor
close precedes any connection close, and close on a never-connected
state performs no calls (so it is safe). -/
theorem close_order_and_safety :
    (∀ (bodyTrace : List Nat) (msg : String) (st : ConnState),
      runMainWithCleanup bodyTrace (RunOutcome.raised msg) st
        = runMainWithCleanup bodyTrace RunOutcome.ok st) ∧
    (∀ (bodyTrace : List Nat) (outcome : RunOutcome) (st : ConnState),
      runMainWithCleanup bodyTrace outcome st
        = bodyTrace.map RunEvent.body ++ (close st).map RunEvent.cleanup) ∧
    (∀ (st : ConnState) (i j : Nat),
      (close st)[i]? = some CloseEvent.closeCursor →
      (close st)[j]? = some CloseEvent.closeConnection → i < j) ∧
    close { cursor := false, connection := false } = [] := by
  refine ⟨fun _ _ _ => rfl, fun bt oc st => ?_, ?_, rfl⟩
  · cases oc <;> rfl
  · intro st i j hi hj
    rcases st with ⟨c, k⟩
    cases c <;> cases k <;>
      simp only [close, if_true, if_false, List.nil_append, List.append_nil] at hi hj <;>
      rcases i with _ | _ | _ | i <;> rcases j with _ | _ | _ | j <;>
      simp_all

theorem close_order_and_safety_witness : (0 : Nat) < 1 :=
  close_order_and_safety.2.2.1 { cursor := true, connection := true } 0 1
    (by decide) (by decide)

end NeoBase
